import Mathlib

/-!
Verification of the natural-language bookkeeping bot (`src/main.py`) against
its specification.  The Python source is shallowly embedded: sheet rows are
lists of strings, `get_all_records` rows are typed records, numbers are exact
rationals (Python's binary floating point rounding is not modelled; every
quantity appearing in the claims is integer-valued and exact in both models),
and user-facing reply strings are abstracted to inductive outcomes carrying
exactly the data interpolated into them.
-/

namespace Raccoon

/-! ## Kernel-computable rational arithmetic

The `Rat` field operations of the ambient library are `@[irreducible]`, so
concrete runs of the embedded code could not be checked by `decide` through
them.  The wrappers below implement the same operations through `mkRat` /
`Rat.divInt` (which do reduce) and are proved equal to the library
operations, so theorem statements can still speak in ordinary `+ - * /`. -/

def qAdd (a b : ℚ) : ℚ := mkRat (a.num * b.den + b.num * a.den) (a.den * b.den)

def qSub (a b : ℚ) : ℚ := mkRat (a.num * b.den - b.num * a.den) (a.den * b.den)

def qMul (a b : ℚ) : ℚ := mkRat (a.num * b.num) (a.den * b.den)

def qNeg (a : ℚ) : ℚ := mkRat (-a.num) a.den

def qAbs (a : ℚ) : ℚ := mkRat (|a.num|) a.den

def qInv (b : ℚ) : ℚ := Rat.divInt (b.den : ℤ) b.num

def qDiv (a b : ℚ) : ℚ := qMul a (qInv b)

def qPowNat (b : ℚ) (k : ℕ) : ℚ := mkRat (b.num ^ k) (b.den ^ k)

theorem qAdd_eq (a b : ℚ) : qAdd a b = a + b := by
  have h1 : ((a.den : ℚ)) ≠ 0 := Nat.cast_ne_zero.mpr a.den_nz
  have h2 : ((b.den : ℚ)) ≠ 0 := Nat.cast_ne_zero.mpr b.den_nz
  unfold qAdd
  rw [Rat.mkRat_eq_div]
  push_cast
  conv_rhs => rw [← Rat.num_div_den a, ← Rat.num_div_den b]
  field_simp
  try ring

theorem qSub_eq (a b : ℚ) : qSub a b = a - b := by
  have h1 : ((a.den : ℚ)) ≠ 0 := Nat.cast_ne_zero.mpr a.den_nz
  have h2 : ((b.den : ℚ)) ≠ 0 := Nat.cast_ne_zero.mpr b.den_nz
  unfold qSub
  rw [Rat.mkRat_eq_div]
  push_cast
  conv_rhs => rw [← Rat.num_div_den a, ← Rat.num_div_den b]
  field_simp
  try ring

theorem qMul_eq (a b : ℚ) : qMul a b = a * b := by
  unfold qMul
  rw [Rat.mkRat_eq_div]
  push_cast
  rw [← div_mul_div_comm, Rat.num_div_den, Rat.num_div_den]

theorem qNeg_eq (a : ℚ) : qNeg a = -a := by
  have h1 : ((a.den : ℚ)) ≠ 0 := Nat.cast_ne_zero.mpr a.den_nz
  unfold qNeg
  rw [Rat.mkRat_eq_div]
  push_cast
  conv_rhs => rw [← Rat.num_div_den a]
  field_simp

theorem qAbs_eq (a : ℚ) : qAbs a = |a| := by
  have h1 : (0 : ℚ) < (a.den : ℚ) := by
    exact_mod_cast Nat.pos_of_ne_zero a.den_nz
  unfold qAbs
  rw [Rat.mkRat_eq_div]
  push_cast
  conv_rhs => rw [← Rat.num_div_den a]
  rw [abs_div, abs_of_pos h1]

theorem qInv_eq (b : ℚ) : qInv b = b⁻¹ :=
  (Rat.inv_def' b).symm

theorem qDiv_eq (a b : ℚ) : qDiv a b = a / b := by
  unfold qDiv
  rw [qMul_eq, qInv_eq, div_eq_mul_inv]

theorem qPowNat_eq (b : ℚ) (k : ℕ) : qPowNat b k = b ^ k := by
  unfold qPowNat
  rw [Rat.mkRat_eq_div]
  push_cast
  rw [← div_pow, Rat.num_div_den]

/-- Rational value of an integer part and a fractional digit block. -/
def decimalVal (ipVal : ℕ) (fpVal : ℕ) (fpLen : ℕ) : ℚ :=
  qAdd (mkRat ipVal 1) (mkRat fpVal (10 ^ fpLen))

/-! ## Python primitives -/

/-- Python whitespace characters matched by the regex class backslash-s
(ASCII fragment, which is all that occurs in amount strings). -/
def isPySpace (c : Char) : Bool :=
  c = ' ' || c = '\t' || c = '\n' || c = '\r'

/-- Value of a list of decimal digit characters. -/
def digitsVal (cs : List Char) : ℕ :=
  cs.foldl (fun a c => 10 * a + (c.toNat - 48)) 0

/-- Python `s.strip()` on a character list. -/
def stripPy (cs : List Char) : List Char :=
  ((cs.dropWhile (fun c => isPySpace c)).reverse.dropWhile
      (fun c => isPySpace c)).reverse

/-- Python `float(s)` on the plain decimal fragment: optional surrounding
spaces, optional sign, digits with at most one decimal point.  (Exponent,
`inf` and `nan` forms never occur in this application's data and are not
modelled.)  Returns the exact rational value; `none` models a raised
`ValueError`. -/
def pyFloat? (s : String) : Option ℚ :=
  let cs := stripPy s.toList
  let signAndBody : Bool × List Char :=
    match cs with
    | '-' :: rest => (true, rest)
    | '+' :: rest => (false, rest)
    | l => (false, l)
  let neg := signAndBody.1
  let body := signAndBody.2
  let ip := body.takeWhile Char.isDigit
  let rest := body.dropWhile Char.isDigit
  let finish : ℚ → Option ℚ := fun v => some (if neg then qNeg v else v)
  match rest with
  | [] => if ip.isEmpty then none else finish (mkRat (digitsVal ip) 1)
  | '.' :: fr =>
      if fr.all Char.isDigit then
        if ip.isEmpty ∧ fr.isEmpty then none
        else finish (decimalVal (digitsVal ip) (digitsVal fr) fr.length)
      else none
  | _ => none

/-- A JSON / sheet value in a numeric position: an actual number, or a raw
string that Python `float()` would have to parse. -/
inductive PyVal where
  | num (q : ℚ)
  | str (s : String)
deriving DecidableEq

/-- Python `float(v)`: identity on numbers, decimal parse on strings;
`none` models a raised `ValueError`/`TypeError`. -/
def pyFloatVal? : PyVal → Option ℚ
  | .num q => some q
  | .str s => pyFloat? s

/-- Python `needle in hay` substring test on strings. -/
def subStr (needle hay : String) : Bool :=
  let n := needle.toList
  let h := hay.toList
  (List.range (h.length + 1)).any (fun i => n.isPrefixOf (h.drop i))

/-- Python `s.startswith(p)`. -/
def startsW (s p : String) : Bool :=
  p.toList.isPrefixOf s.toList

/-! ## Amount Expression Evaluator (`_parse_amount_expr`, src/main.py:926) -/

/-- Tokens of the arithmetic sublanguage reachable through the character
whitelist of `_parse_amount_expr` (digits, `.`, `+`, `-`, `*`, spaces;
`**` is Python's power operator). -/
inductive Tok where
  | num (q : ℚ)
  | plus
  | minus
  | mul
  | pow
deriving DecidableEq

/-- Lex one Python numeric literal from the head of the character list.
Returns the value, the remaining characters.  Mirrors CPython tokenization
on this character set: an integer literal of several digits starting with
`0` is a syntax error ("leading zeros ... are not supported"), a lone `.`
is a syntax error, float literals may have leading zeros. -/
def lexNumber (cs : List Char) : Option (ℚ × List Char) :=
  let ip := cs.takeWhile Char.isDigit
  let r1 := cs.dropWhile Char.isDigit
  match r1 with
  | '.' :: r2 =>
      let fp := r2.takeWhile Char.isDigit
      let r3 := r2.dropWhile Char.isDigit
      if ip.isEmpty ∧ fp.isEmpty then none
      else some (decimalVal (digitsVal ip) (digitsVal fp) fp.length, r3)
  | _ =>
      if ip.isEmpty then none
      else if ip.length > 1 ∧ ip.headI = '0' then none
      else some (mkRat (digitsVal ip) 1, r1)

/-- Tokenizer (fuelled by the input length). -/
def lexTokens : List Char → ℕ → Option (List Tok)
  | _, 0 => none
  | [], _ + 1 => some []
  | c :: cs, fuel + 1 =>
    if isPySpace c then lexTokens cs fuel
    else if c = '*' then
      match cs with
      | '*' :: cs2 => (lexTokens cs2 fuel).map (Tok.pow :: ·)
      | _ => (lexTokens cs fuel).map (Tok.mul :: ·)
    else if c = '+' then (lexTokens cs fuel).map (Tok.plus :: ·)
    else if c = '-' then (lexTokens cs fuel).map (Tok.minus :: ·)
    else if c.isDigit ∨ c = '.' then
      match lexNumber (c :: cs) with
      | some (q, rest) => (lexTokens rest fuel).map (Tok.num q :: ·)
      | none => none
    else none

/-- Python `b ** e` on exact rationals.  Integer exponents are exact
(`0 ** negative` raises `ZeroDivisionError`, modelled as `none`); a
non-integer exponent yields an irrational float and is outside the model
(no input of this application produces one). -/
def pyPow (b e : ℚ) : Option ℚ :=
  if e.den = 1 then
    if b = 0 ∧ e.num < 0 then none
    else if 0 ≤ e.num then some (qPowNat b e.num.toNat)
    else some (qInv (qPowNat b (-e.num).toNat))
  else none

/-- `u_expr := ("+" | "-") u_expr | primary ["**" u_expr]` — Python's unary
and power level, power binding right and tighter than unary minus on its
left. -/
def parseUnary : ℕ → List Tok → Option (ℚ × List Tok)
  | 0, _ => none
  | f + 1, Tok.plus :: ts => parseUnary f ts
  | f + 1, Tok.minus :: ts => (parseUnary f ts).map (fun p => (qNeg p.1, p.2))
  | f + 1, Tok.num b :: ts =>
      match ts with
      | Tok.pow :: ts2 =>
          match parseUnary f ts2 with
          | some (e, r) => (pyPow b e).map (fun v => (v, r))
          | none => none
      | _ => some (b, ts)
  | _ + 1, _ => none

/-- Left-associated chain of `*`. -/
def parseMulChain : ℕ → ℚ → List Tok → Option (ℚ × List Tok)
  | 0, _, _ => none
  | f + 1, acc, Tok.mul :: ts =>
      match parseUnary f ts with
      | some (v, r) => parseMulChain f (qMul acc v) r
      | none => none
  | _ + 1, acc, ts => some (acc, ts)

/-- `term := u_expr ("*" u_expr)*`. -/
def parseTerm (f : ℕ) (ts : List Tok) : Option (ℚ × List Tok) :=
  match parseUnary f ts with
  | some (v, r) => parseMulChain f v r
  | none => none

/-- Left-associated chain of `+` / `-`. -/
def parseAddChain : ℕ → ℚ → List Tok → Option (ℚ × List Tok)
  | 0, _, _ => none
  | f + 1, acc, Tok.plus :: ts =>
      match parseTerm f ts with
      | some (v, r) => parseAddChain f (qAdd acc v) r
      | none => none
  | f + 1, acc, Tok.minus :: ts =>
      match parseTerm f ts with
      | some (v, r) => parseAddChain f (qSub acc v) r
      | none => none
  | _ + 1, acc, ts => some (acc, ts)

/-- `expr := term (("+" | "-") term)*`. -/
def parseExprQ (f : ℕ) (ts : List Tok) : Option (ℚ × List Tok) :=
  match parseTerm f ts with
  | some (v, r) => parseAddChain f v r
  | none => none

/-- Python `eval(s)` restricted to the character set that survives the
whitelist below: everything beyond a single full expression, or any parse
failure, is a `SyntaxError` (caught by the caller, yielding `none`). -/
def pyEvalArith (s : String) : Option ℚ :=
  let cs := s.toList
  match lexTokens cs (cs.length + 1) with
  | some ts =>
      match parseExprQ (ts.length + 1) ts with
      | some (v, []) => some v
      | _ => none
  | none => none

/-- The normalisation `expr.replace('x','*').replace('X','*')
.replace('＋','+').replace('－','-').replace('＊','*')` (src/main.py:931);
source and target characters do not overlap, so the sequential replaces
equal a single character map. -/
def normChar (c : Char) : Char :=
  if c = 'x' ∨ c = 'X' ∨ c = '＊' then '*'
  else if c = '＋' then '+'
  else if c = '－' then '-'
  else c

/-- The whitelist regex class of src/main.py:932. -/
def exprAllowedChar (c : Char) : Bool :=
  c.isDigit || c = '.' || c = '+' || c = '-' || c = '*' || isPySpace c

/-- `_parse_amount_expr` (src/main.py:926-936): normalise, require a full
match of the character whitelist (the regex needs at least one character),
then `eval`; any exception yields `None`. -/
def parseAmountExpr (s : String) : Option ℚ :=
  let std := s.toList.map normChar
  if std ≠ [] ∧ std.all exprAllowedChar then
    pyEvalArith (String.mk std)
  else none

/-! ## Ledger Store, values form (`sheet.get_all_values()`)

`get_all_values` returns a list of lists of strings; row 0 is the header.
`ValSheet` keeps the header separate: `rows` are the data rows, Python's
`all_values[i]` for `i ≥ 1`, so the GSheet row number of `rows[j]` is
`j + 2`. -/

structure ValSheet where
  header : List String
  rows : List (List String)
deriving DecidableEq

/-- Python exceptions distinguished by the handlers' `except` clauses. -/
inductive PyErr where
  | valueErr
  | keyErr
  | attrErr
deriving DecidableEq

/-- Python `list.index(x)`: position of the first occurrence, or a raised
`ValueError`. -/
def idxOfStr : List String → String → ℕ → Option ℕ
  | [], _, _ => none
  | s :: rest, t, i => if s = t then some i else idxOfStr rest t (i + 1)

/-- `header.index(name)` in `Except` form. -/
def pyIndex (h : List String) (t : String) : Except PyErr ℕ :=
  match idxOfStr h t 0 with
  | some i => .ok i
  | none => .error .valueErr

/-- Translation of `header.get(name, -1)` at src/main.py:239-240, 1252-1253
and 1330-1331, where `header` is `all_values[0]`, a Python *list*: list
objects have no `get` method, so the call raises `AttributeError`
regardless of the sheet's header names or contents. -/
def listGetMethod (_h : List String) (_t : String) (_d : ℤ) : Except PyErr ℤ :=
  .error .attrErr

/-- Read cell `i` of a row that has already passed the handler's length
guard. -/
def cell (r : List String) (i : ℕ) : String :=
  r.getD i ""

/-- Read a cell through a signed index (the `-1` sentinel never reaches an
actual access: every access is guarded by `≠ -1`). -/
def cellZ (r : List String) (i : ℤ) : String :=
  cell r i.toNat

/-- Python string slice `s[:n]`. -/
def strTake (s : String) (n : ℕ) : String :=
  String.mk (s.toList.take n)

/-! ## Dates (`datetime.strptime(s, '%Y-%m-%d')`) -/

def daysInMonth (y m : ℕ) : ℕ :=
  if m = 2 then
    if (y % 4 = 0 ∧ y % 100 ≠ 0) ∨ y % 400 = 0 then 29 else 28
  else if m = 4 ∨ m = 6 ∨ m = 9 ∨ m = 11 then 30 else 31

/-- `strptime(s, '%Y-%m-%d').date()`, encoded as the sortable key
`y * 10000 + m * 100 + d` (`date` comparison coincides with key
comparison); `none` models a raised `ValueError`. -/
def parseDate10 (s : String) : Option ℕ :=
  match s.toList with
  | [y1, y2, y3, y4, '-', m1, m2, '-', d1, d2] =>
      if [y1, y2, y3, y4, m1, m2, d1, d2].all Char.isDigit then
        let y := digitsVal [y1, y2, y3, y4]
        let mo := digitsVal [m1, m2]
        let d := digitsVal [d1, d2]
        if 1 ≤ mo ∧ mo ≤ 12 ∧ 1 ≤ d ∧ d ≤ daysInMonth y mo then
          some (y * 10000 + mo * 100 + d)
        else none
      else none
  | _ => none

/-! ## Category spending accumulator (a Python dict used with
`d[k] = d.get(k, 0) + v`; insertion-ordered). -/

def bumpCat (m : List (String × ℚ)) (k : String) (v : ℚ) : List (String × ℚ) :=
  match m with
  | [] => [(k, v)]
  | (k1, v1) :: rest =>
      if k1 = k then (k1, qAdd v1 v) :: rest else (k1, v1) :: bumpCat rest k v

/-! ## `handle_total_analysis` (src/main.py:386-448) -/

inductive TotalOut where
  | noRecords
  | headerMissing
  | ok (income expense : ℚ) (catSpending : List (String × ℚ))
deriving DecidableEq

/-- One iteration of the scan loop of `handle_total_analysis`. -/
def totalStep (uid : String) (iU iA iC : ℕ)
    (acc : ℚ × ℚ × List (String × ℚ)) (r : List String) :
    ℚ × ℚ × List (String × ℚ) :=
  if r.length > max iU (max iA iC) ∧ cell r iU = uid then
    match pyFloat? (cell r iA) with
    | none => acc
    | some a =>
        if 0 < a then (qAdd acc.1 a, acc.2.1, acc.2.2)
        else
          let expense := qAbs a
          let category := if cell r iC ≠ "" then cell r iC else "雜項"
          (acc.1, qAdd acc.2.1 expense, bumpCat acc.2.2 category expense)
  else acc

def handle_total_analysis (sheet : ValSheet) (uid : String) : TotalOut :=
  if sheet.rows.isEmpty then .noRecords
  else
    match (do
        let iU ← pyIndex sheet.header "使用者ID"
        let iA ← pyIndex sheet.header "金額"
        let iC ← pyIndex sheet.header "類別"
        pure (iU, iA, iC) : Except PyErr (ℕ × ℕ × ℕ)) with
    | .error _ => .headerMissing
    | .ok (iU, iA, iC) =>
        let res := sheet.rows.foldl (totalStep uid iU iA iC) (0, 0, [])
        if res.1 = 0 ∧ res.2.1 = 0 then .noRecords
        else .ok res.1 res.2.1 res.2.2

/-! ## `handle_monthly_report` (src/main.py:1238-1313) -/

inductive MonthlyOut where
  | empty
  | headerMissing
  | failure
  | monthEmpty
  | report (income expenseSigned : ℚ) (catSpending : List (String × ℚ))
deriving DecidableEq

/-- Header resolution of `handle_monthly_report` (src/main.py:1250-1255);
the two `header.get` calls raise `AttributeError` because `header` is a
list. -/
def monthlyHeaderIdx (h : List String) : Except PyErr (ℕ × ℤ × ℤ × ℕ × ℕ) := do
  let iU ← pyIndex h "使用者ID"
  let iNew ← listGetMethod h "日期" (-1)
  let iOld ← listGetMethod h "時間" (-1)
  let iA ← pyIndex h "金額"
  let iC ← pyIndex h "類別"
  pure (iU, iNew, iOld, iA, iC)

/-- "優先讀取 '日期'，再讀取 '時間'": the tolerant timestamp read of the
scan loops (src/main.py:1275-1279). -/
def tsFromRow (r : List String) (iNew iOld : ℤ) : String :=
  if iNew ≠ -1 ∧ (r.length : ℤ) > iNew ∧ cellZ r iNew ≠ "" then cellZ r iNew
  else if iOld ≠ -1 ∧ (r.length : ℤ) > iOld ∧ cellZ r iOld ≠ "" then cellZ r iOld
  else ""

/-- One iteration of the scan loop of `handle_monthly_report`
(src/main.py:1267-1291). -/
def monthlyStep (uid : String) (iU : ℕ) (iNew iOld : ℤ) (iA iC : ℕ)
    (month : String) (acc : ℚ × ℚ × List (String × ℚ)) (r : List String) :
    ℚ × ℚ × List (String × ℚ) :=
  if (r.length : ℤ) ≤ max (iU : ℤ) (max iNew (max iOld (max (iA : ℤ) (iC : ℤ)))) then acc
  else if cell r iU ≠ uid then acc
  else if startsW (tsFromRow r iNew iOld) month then
    match pyFloat? (cell r iA) with
    | none => acc
    | some a =>
        if 0 < a then (qAdd acc.1 a, acc.2.1, acc.2.2)
        else
          let category := if cell r iC ≠ "" then cell r iC else "雜項"
          (acc.1, qAdd acc.2.1 a, bumpCat acc.2.2 category (qAbs a))
  else acc

def handle_monthly_report (sheet : ValSheet) (uid month : String) : MonthlyOut :=
  if sheet.rows.isEmpty then .empty
  else
    match monthlyHeaderIdx sheet.header with
    | .error .attrErr => .failure
    | .error _ => .headerMissing
    | .ok (iU, iNew, iOld, iA, iC) =>
        let res := sheet.rows.foldl (monthlyStep uid iU iNew iOld iA iC month) (0, 0, [])
        if res.1 = 0 ∧ res.2.1 = 0 then .monthEmpty
        else .report res.1 res.2.1 res.2.2

/-! ## `handle_search_records_nlp`, sheet-scan part (src/main.py:231-346)

The NLP call that produces the parsed query is an external oracle; the scan
takes its output (`keyword`, `start_date`, `end_date`, `type`) as input.
The header lookups at src/main.py:239-240 call `.get` on the header list,
raising an `AttributeError` that no enclosing `try` in this function
catches, so the result is an escaping exception (`Except.error`). -/

structure SearchQuery where
  keyword : Option String
  startDate : Option String
  endDate : Option String
  qtype : String
deriving DecidableEq

inductive SearchOut where
  | emptyBook
  | headerMissing
  | badDate
  | noMatches
  | results (found : List (String × List String))
deriving DecidableEq

def searchHeaderIdx (h : List String) : Except PyErr (ℕ × ℤ × ℤ × ℕ × ℕ × ℕ) := do
  let iU ← pyIndex h "使用者ID"
  let iNew ← listGetMethod h "日期" (-1)
  let iOld ← listGetMethod h "時間" (-1)
  let iA ← pyIndex h "金額"
  let iC ← pyIndex h "類別"
  let iN ← pyIndex h "備註"
  pure (iU, iNew, iOld, iA, iC, iN)

/-- One iteration of the match loop of `handle_search_records_nlp`
(src/main.py:257-302): keyword (substring of category or note), inclusive
date range on the tolerantly-read timestamp, and income/expense type
filter. -/
def searchStep (uid : String) (iU : ℕ) (iNew iOld : ℤ) (iA iC iN : ℕ)
    (kw : Option String) (sk ek : Option ℕ) (qtype : String)
    (acc : List (String × List String)) (r : List String) :
    List (String × List String) :=
  if (r.length : ℤ) ≤ max (iU : ℤ)
      (max iNew (max iOld (max (iA : ℤ) (max (iC : ℤ) (iN : ℤ))))) then acc
  else if cell r iU ≠ uid then acc
  else
    let keywordMatch :=
      match kw with
      | none => true
      | some k => subStr k (cell r iC) || subStr k (cell r iN)
    let ts := tsFromRow r iNew iOld
    let dateMatch :=
      if (sk.isSome || ek.isSome) ∧ ts ≠ "" then
        match parseDate10 (strTake ts 10) with
        | none => false
        | some key =>
            (match sk with | none => true | some s => decide (s ≤ key)) &&
            (match ek with | none => true | some e => decide (key ≤ e))
      else true
    let typeMatch :=
      match pyFloat? (cell r iA) with
      | none => false
      | some a =>
          if qtype = "income" ∧ a ≤ 0 then false
          else if qtype = "expense" ∧ 0 ≤ a then false
          else true
    if keywordMatch && dateMatch && typeMatch then acc ++ [(ts, r)] else acc

def handle_search_scan (sheet : ValSheet) (uid : String) (q : SearchQuery) :
    Except PyErr SearchOut :=
  if sheet.rows.isEmpty then .ok .emptyBook
  else
    match searchHeaderIdx sheet.header with
    | .error .attrErr => .error .attrErr
    | .error _ => .ok .headerMissing
    | .ok (iU, iNew, iOld, iA, iC, iN) =>
        let skr := q.startDate.map parseDate10
        let ekr := q.endDate.map parseDate10
        if skr = some none ∨ ekr = some none then .ok .badDate
        else
          let sk := skr.bind id
          let ek := ekr.bind id
          let ms := sheet.rows.foldl
            (searchStep uid iU iNew iOld iA iC iN q.keyword sk ek q.qtype) []
          if ms.isEmpty then .ok .noMatches else .ok (.results ms)

/-! ## Budget Engine (`check_budget_warning`, src/main.py:876-923)

This function reads via `get_all_records()`, which yields dicts, so the
rows are typed records here (and `get_datetime_from_record`'s dict `.get`
calls are legitimate). -/

/-- One row of the budget sheet as seen through `get_all_records()`:
`b.get('限額', 0)` defaults to `0` when the key is missing, so a missing
limit is `PyVal.num 0`. -/
structure BudgetRec where
  uid : String
  cat : String
  limitVal : PyVal
deriving DecidableEq

/-- One row of the transaction sheet as seen through `get_all_records()`.
`dateNew`/`dateOld` model presence of the '日期' / '時間' keys. -/
structure TrxRec where
  uid : String
  cat : String
  amount : PyVal
  dateNew : Option String
  dateOld : Option String
deriving DecidableEq

/-- `get_datetime_from_record` (src/main.py:845-850):
`r.get('日期', r.get('時間', ''))`. -/
def get_datetime_from_record (r : TrxRec) : String :=
  r.dateNew.getD (r.dateOld.getD "")

/-- The budget lookup loop (src/main.py:887-890): the first row matching
(user, category) wins (`break`). -/
def findBudgetLimit : List BudgetRec → String → String → Option PyVal
  | [], _, _ => none
  | b :: rest, uid, cat =>
      if b.uid = uid ∧ b.cat = cat then some b.limitVal
      else findBudgetLimit rest uid cat

/-- The spend loop (src/main.py:897-909): sum of `|amount|` over the
user's rows of this category in the current month with `amount < 0`; rows
whose amount fails to parse are skipped by the inner `except`. -/
def monthSpent (trxs : List TrxRec) (uid cat month : String) : ℚ :=
  trxs.foldl
    (fun s r =>
      match pyFloatVal? r.amount with
      | none => s
      | some a =>
          if r.uid = uid ∧ startsW (get_datetime_from_record r) month ∧
              r.cat = cat ∧ a < 0 then
            qAdd s (qAbs a)
          else s)
    0

/-- Outcome of `check_budget_warning`: the empty string, one of the two
warning strings (carrying the interpolated amounts), or the generic error
string from the outer `except`. -/
inductive BudgetOut where
  | quiet
  | overBudget (overage : ℚ)
  | nearLimit (remaining percentUsed : ℚ)
  | errored
deriving DecidableEq

def check_budget_warning (budgets : List BudgetRec) (trxs : List TrxRec)
    (uid cat month : String) : BudgetOut :=
  if cat = "收入" then .quiet
  else
    let lim : Option ℚ :=
      match findBudgetLimit budgets uid cat with
      | none => some 0
      | some v => pyFloatVal? v
    match lim with
    | none => .errored
    | some l =>
        if l ≤ 0 then .quiet
        else
          let spent := monthSpent trxs uid cat month
          let pct := qMul (qDiv spent l) 100
          if pct ≥ 100 then .overBudget (qSub spent l)
          else if pct ≥ 90 then .nearLimit (qSub l spent) pct
          else .quiet

/-! ## Extraction & Repair Pipeline, success path
(`handle_nlp_record`, src/main.py:1146-1210)

A draft is one entry of the oracle's `data` list; `Option` fields model
possibly-missing JSON keys (the handler reads each through `.get` with a
default). -/

structure Draft where
  datetime : Option String
  category : Option String
  amount : Option PyVal
  notes : Option String
deriving DecidableEq

/-- `_try_collapse_add_expr_from_text` (src/main.py:938-970).  `none`
models an exception escaping the call (only the `float()` conversions can
raise), which the call site catches by keeping the records unchanged. -/
def tryCollapse (text : String) (records : List Draft) :
    Option (List Draft × Bool) :=
  let t := stripPy text.toList
  match t.findIdx? Char.isDigit with
  | none => some (records, false)
  | some i =>
      let pfx := stripPy (t.take i)
      let tail := t.drop i
      match parseAmountExpr (String.mk tail) with
      | none => some (records, false)
      | some val =>
          if records.length < 2 then some (records, false)
          else
            let cats := records.map (fun r => r.category.getD "")
            let sameCat :=
              match cats with
              | [] => true
              | c :: rest => rest.all (· = c)
            if sameCat = false then some (records, false)
            else
              match (records.mapM (fun r => pyFloatVal? (r.amount.getD (.num 0)))) with
              | none => none
              | some amts =>
                  let pos := (amts.filter (fun a => 0 < a)).length
                  let neg := amts.length - pos
                  let sign : ℚ := if pos > neg then 1 else -1
                  match records with
                  | [] => some (records, false)
                  | r0 :: _ =>
                      some ([{ datetime := r0.datetime,
                               category := r0.category,
                               amount := some (.num (qMul val sign)),
                               notes := some (if pfx ≠ [] then String.mk pfx
                                              else r0.notes.getD "") }], true)

/-- One appended ledger row:
`sheet.append_row([datetime_str, category, amount, user_id, user_name, notes])`
(src/main.py:1179). -/
structure LedgerRow where
  datetime : String
  category : String
  amount : ℚ
  uid : String
  uname : String
  notes : String
deriving DecidableEq

/-- Per-draft outcome inside the write loop (src/main.py:1159-1188): a
written row, or one of the two skip summary lines. -/
inductive DraftOutcome where
  | wrote (row : LedgerRow)
  | skippedZero (notes category : String)
  | skippedBadAmount (notes category : String) (raw : PyVal)
deriving DecidableEq

/-- The body of the write loop for one draft: category-membership repair
first (invalid category becomes `雜項` with the original label prepended
in parentheses to the note), then the amount parse/zero checks. -/
def processDraft (userCats : List String) (text uid uname currentTime : String)
    (d : Draft) : DraftOutcome :=
  let datetimeStr := d.datetime.getD currentTime
  let cat0 := d.category.getD "雜項"
  let amtVal := d.amount.getD (.num 0)
  let notes0 := d.notes.getD text
  let repaired : String × String :=
    if cat0 ∈ userCats then (cat0, notes0)
    else ("雜項", "(" ++ cat0 ++ ") " ++ notes0)
  match pyFloatVal? amtVal with
  | none => .skippedBadAmount repaired.2 repaired.1 amtVal
  | some a =>
      if a = 0 then .skippedZero repaired.2 repaired.1
      else .wrote ⟨datetimeStr, repaired.1, a, uid, uname, repaired.2⟩

/-- `any(float(r.get('amount', 0)) > 0 for r in records)`
(src/main.py:1192), with Python's lazy short-circuit: an early positive
amount stops evaluation before a later unparseable one could raise. -/
def anyPositiveAmount : List Draft → Except Unit Bool
  | [] => .ok false
  | d :: rest =>
      match pyFloatVal? (d.amount.getD (.num 0)) with
      | none => .error ()
      | some a => if 0 < a then .ok true else anyPositiveAmount rest

/-- The data of the reply built by the success path: the rows appended to
the ledger (in order), the per-draft summary lines, and the category that
selects the random "cute reply" pool. -/
structure NlpRecordOut where
  appended : List LedgerRow
  summary : List DraftOutcome
  cuteCategory : String
deriving DecidableEq

inductive NlpRecordResult where
  | noRecords
  | errored (appended : List LedgerRow)
  | ok (out : NlpRecordOut)
deriving DecidableEq

/-- The `status == 'success'` branch of `handle_nlp_record`
(src/main.py:1146-1210).  `budgets` is the budget sheet that is in scope
(`budget_sheet`): the 11-05 revision deliberately removed the
budget-warning lookup from this path (src/main.py:1197-1205), so the
result is built without ever reading it. -/
def handle_nlp_record_success (userCats : List String)
    (_budgets : List BudgetRec) (text uid uname currentTime : String)
    (records0 : List Draft) : NlpRecordResult :=
  let records :=
    match tryCollapse text records0 with
    | some p => p.1
    | none => records0
  if records.isEmpty then .noRecords
  else
    let outs := records.map (processDraft userCats text uid uname currentTime)
    let appended := outs.filterMap
      (fun o => match o with | .wrote r => some r | _ => none)
    let lastCat := outs.foldl
      (fun acc o => match o with | .wrote r => r.category | _ => acc) "雜項"
    match anyPositiveAmount records with
    | .error _ => .errored appended
    | .ok b => .ok ⟨appended, outs, if b then "收入" else lastCat⟩

/-! ## Delete Confirmation State Machine
(`handle_advanced_delete_nlp`, src/main.py:1454-1606, sheet-scan part, and
`handle_confirm_delete`, src/main.py:1609-1681)

`delete_preview_cache` is a dict keyed by owner id; it is modelled as a
total function to `Option DelPreview`.  Time is in seconds
(`event_time` / `total_seconds()`). -/

/-- The per-owner cached preview (src/main.py:1593-1598).  The rendered
message text is not part of any claim and is omitted; `mapping` and
`allRows` carry GSheet row numbers. -/
structure DelPreview where
  timestamp : ℚ
  mapping : List (ℕ × ℕ)
  allRows : List ℕ
deriving DecidableEq

def Cache : Type := String → Option DelPreview

def cacheSet (c : Cache) (k : String) (v : DelPreview) : Cache :=
  fun k1 => if k1 = k then some v else c k1

def cacheDel (c : Cache) (k : String) : Cache :=
  fun k1 => if k1 = k then none else c k1

/-- Delete criteria extracted by the NLP step (keyword and/or date range);
the scan takes them as input. -/
structure DelCriteria where
  keyword : Option String
  startDate : Option String
  endDate : Option String
deriving DecidableEq

/-- `matches_found` entries (src/main.py:1543-1549). -/
structure MatchInfo where
  gsheetRow : ℕ
  dateStr : String
  category : String
  amount : String
  notes : String
deriving DecidableEq

/-- Header resolution of the delete scan (src/main.py:1496-1507), which
correctly uses `.index` with a `try`/`except ValueError` fallback from
'日期' to '時間'. -/
def delHeaderIdx (h : List String) : Option (ℕ × ℕ × ℕ × ℕ × ℕ) :=
  match idxOfStr h "使用者ID" 0,
      (idxOfStr h "日期" 0 <|> idxOfStr h "時間" 0),
      idxOfStr h "類別" 0, idxOfStr h "備註" 0, idxOfStr h "金額" 0 with
  | some iU, some iT, some iC, some iN, some iA => some (iU, iT, iC, iN, iA)
  | _, _, _, _, _ => none

/-- The per-row match test of the delete scan (src/main.py:1517-1541). -/
def delRowMatch (uid : String) (iU iT iC iN iA : ℕ) (kw : Option String)
    (sk ek : Option ℕ) (r : List String) : Bool :=
  if r.length ≤ max iU (max iT (max iC (max iN iA))) then false
  else if cell r iU ≠ uid then false
  else
    let keywordMatch :=
      match kw with
      | none => true
      | some k => subStr k (cell r iC) || subStr k (cell r iN)
    let ts := cell r iT
    let dateMatch :=
      if (sk.isSome || ek.isSome) ∧ ts ≠ "" then
        match parseDate10 (strTake ts 10) with
        | none => false
        | some key =>
            (match sk with | none => true | some s => decide (s ≤ key)) &&
            (match ek with | none => true | some e => decide (key ≤ e))
      else true
    keywordMatch && dateMatch

/-- The scan loop (src/main.py:1517-1550): `gsheetRow` of data row `j`
(0-based in `ValSheet.rows`) is `j + 2`; `idx` is the GSheet row number of
the head of `rows`. -/
def delScan (uid : String) (iU iT iC iN iA : ℕ) (kw : Option String)
    (sk ek : Option ℕ) : List (List String) → ℕ → List MatchInfo
  | [], _ => []
  | r :: rest, idx =>
      (if delRowMatch uid iU iT iC iN iA kw sk ek r then
        [{ gsheetRow := idx,
           dateStr := if cell r iT ≠ "" then strTake (cell r iT) 10 else "N/A",
           category := cell r iC,
           amount := cell r iA,
           notes := cell r iN }]
      else []) ++ delScan uid iU iT iC iN iA kw sk ek rest (idx + 1)

inductive DelPreviewOut where
  | emptyBook
  | headerMissing
  | failure
  | notFound
  | preview (total shown : ℕ) (warnedLarge : Bool)
deriving DecidableEq

/-- The serial-number mapping built at src/main.py:1570-1575:
`{1 ↦ matches[0].gsheet_row, …}` over the first `min(5, total)` matches. -/
def serialMap : ℕ → List ℕ → List (ℕ × ℕ)
  | _, [] => []
  | s, r :: rest => (s, r) :: serialMap (s + 1) rest

/-- All matching GSheet row numbers, in scan (ascending) order. -/
def delRowsOf (sheet : ValSheet) (uid : String) (crit : DelCriteria) :
    List ℕ :=
  match delHeaderIdx sheet.header with
  | none => []
  | some (iU, iT, iC, iN, iA) =>
      (delScan uid iU iT iC iN iA crit.keyword
        (crit.startDate.bind parseDate10) (crit.endDate.bind parseDate10)
        sheet.rows 2).map (fun m => m.gsheetRow)

/-- The GSheet part of `handle_advanced_delete_nlp`
(src/main.py:1487-1606), from parsed criteria on.  A `start_date` /
`end_date` string that `strptime` rejects raises inside the outer `try`,
yielding the generic failure reply (`.failure`). -/
def handle_advanced_delete (sheet : ValSheet) (uid : String)
    (crit : DelCriteria) (now : ℚ) (store : Cache) :
    DelPreviewOut × Cache :=
  if sheet.rows.isEmpty ∧ sheet.header.isEmpty then (.emptyBook, store)
  else
    match delHeaderIdx sheet.header with
    | none => (.headerMissing, store)
    | some _ =>
        if (crit.startDate.map parseDate10 = some none) ∨
            (crit.endDate.map parseDate10 = some none) then (.failure, store)
        else if (delRowsOf sheet uid crit).isEmpty then (.notFound, store)
        else
          (.preview (delRowsOf sheet uid crit).length
            (min 5 (delRowsOf sheet uid crit).length)
            (decide ((delRowsOf sheet uid crit).length > 30)),
           cacheSet store uid
             ⟨now, serialMap 1 ((delRowsOf sheet uid crit).take 5),
               delRowsOf sheet uid crit⟩)

/-- `sorted(rows, reverse=True)` (src/main.py:1665): for numeric keys the
output is the unique non-increasing permutation, here via the library's
insertion sort under `≥`. -/
def sortDesc (l : List ℕ) : List ℕ :=
  List.insertionSort (· ≥ ·) l

/-- The association-list lookup `serial_num in mapping` /
`mapping[serial_num]` (src/main.py:1638-1639). -/
def lookupSerial : List (ℕ × ℕ) → ℕ → Option ℕ
  | [], _ => none
  | (k, v) :: rest, n => if k = n then some v else lookupSerial rest n

inductive ConfirmOut where
  | noPending
  | expired
  | ordinalNotFound (n : ℕ)
  | emptyCache
  | deletedOne (serial : ℕ)
  | deletedAll (count : ℕ)
deriving DecidableEq

/-- `handle_confirm_delete` (src/main.py:1609-1681).  `ordinal` is the
`\d+` capture of the `(確認刪除|刪除)\s*(\d+)` search, when present (the
`int()` of a `\d+` match cannot raise, so the `except ValueError` branch
at src/main.py:1645-1649 is dead code).  Returns the reply outcome, the
row numbers passed to `sheet.delete_rows` in execution order, and the
updated cache. -/
def handle_confirm_delete (uid : String) (now : ℚ) (ordinal : Option ℕ)
    (store : Cache) : ConfirmOut × List ℕ × Cache :=
  match store uid with
  | none => (.noPending, [], store)
  | some p =>
      if qSub now p.timestamp > 300 then (.expired, [], cacheDel store uid)
      else
        let rowsOrErr : Except ℕ (List ℕ × Bool) :=
          match ordinal with
          | some n =>
              match lookupSerial p.mapping n with
              | some row => .ok ([row], true)
              | none => .error n
          | none => .ok (p.allRows, false)
        match rowsOrErr with
        | .error n => (.ordinalNotFound n, [], store)
        | .ok (rows, single) =>
            if rows.isEmpty then (.emptyCache, [], cacheDel store uid)
            else
              (if single then .deletedOne (ordinal.getD 0)
               else .deletedAll rows.length,
               sortDesc rows, cacheDel store uid)

/-! ## Helper lemmas -/

theorem tryCollapse_singleton (text : String) (d : Draft) :
    tryCollapse text [d] = some ([d], false) := by
  simp only [tryCollapse]
  cases List.findIdx? Char.isDigit (stripPy text.toList) with
  | none => rfl
  | some i =>
      dsimp only
      cases parseAmountExpr (String.mk (List.drop i (stripPy text.toList))) with
      | none => rfl
      | some v => rfl

theorem delScan_ge (uid : String) (iU iT iC iN iA : ℕ) (kw : Option String)
    (sk ek : Option ℕ) :
    ∀ (rows : List (List String)) (idx : ℕ) (m : MatchInfo),
      m ∈ delScan uid iU iT iC iN iA kw sk ek rows idx → idx ≤ m.gsheetRow := by
  intro rows
  induction rows with
  | nil =>
      intro idx m h
      simp [delScan] at h
  | cons r rest ih =>
      intro idx m h
      rw [delScan] at h
      rcases List.mem_append.mp h with h1 | h2
      · split at h1
        · simp at h1
          subst h1
          exact le_refl idx
        · simp at h1
      · exact le_trans (Nat.le_succ idx) (ih (idx + 1) m h2)

theorem delScan_pairwise (uid : String) (iU iT iC iN iA : ℕ)
    (kw : Option String) (sk ek : Option ℕ) :
    ∀ (rows : List (List String)) (idx : ℕ),
      (delScan uid iU iT iC iN iA kw sk ek rows idx).Pairwise
        (fun a b => a.gsheetRow < b.gsheetRow) := by
  intro rows
  induction rows with
  | nil =>
      intro idx
      simp [delScan]
  | cons r rest ih =>
      intro idx
      rw [delScan]
      split
      · rw [List.singleton_append]
        refine List.Pairwise.cons ?_ (ih (idx + 1))
        intro m hm
        have h2 := delScan_ge uid iU iT iC iN iA kw sk ek rest (idx + 1) m hm
        exact Nat.lt_of_succ_le h2
      · rw [List.nil_append]
        exact ih (idx + 1)

theorem delRowsOf_pairwise (sheet : ValSheet) (uid : String)
    (crit : DelCriteria) : (delRowsOf sheet uid crit).Pairwise (· < ·) := by
  unfold delRowsOf
  split
  · simp
  · exact List.Pairwise.map _ (fun a b h => h)
      (delScan_pairwise _ _ _ _ _ _ _ _ _ _ _)

theorem sortDesc_strict (l : List ℕ) (h : l.Pairwise (· < ·)) :
    (sortDesc l).Pairwise (· > ·) := by
  have hnd : l.Nodup := h.imp (fun hab => Nat.ne_of_lt hab)
  have hs : (sortDesc l).Sorted (· ≥ ·) := List.sorted_insertionSort _ l
  have hnd2 : (sortDesc l).Nodup :=
    (List.perm_insertionSort (· ≥ ·) l).nodup_iff.mpr hnd
  exact (hs.and hnd2).imp (fun hab => lt_of_le_of_ne hab.1 (Ne.symm hab.2))

theorem sortDesc_singleton (a : ℕ) : sortDesc [a] = [a] := rfl

theorem lookupSerial_serialMap (l : List ℕ) : ∀ (s n : ℕ),
    lookupSerial (serialMap s l) n
      = if s ≤ n ∧ n < s + l.length then l[n - s]? else none := by
  induction l with
  | nil =>
      intro s n
      simp [serialMap, lookupSerial]
      try omega
  | cons a rest ih =>
      intro s n
      rw [serialMap, lookupSerial]
      by_cases h : s = n
      · subst h
        rw [if_pos rfl, if_pos (by simp)]
        simp
      · rw [if_neg (by omega : ¬ s = n), ih (s + 1) n]
        by_cases h2 : s + 1 ≤ n ∧ n < s + 1 + rest.length
        · rw [if_pos h2, if_pos (by simp; omega)]
          have h3 : n - s = (n - (s + 1)) + 1 := by omega
          rw [h3, List.getElem?_cons_succ]
        · rw [if_neg h2, if_neg (by simp; omega)]

theorem advDelete_cache_cases (sheet : ValSheet) (uid : String)
    (crit : DelCriteria) (now : ℚ) (store : Cache) :
    (handle_advanced_delete sheet uid crit now store).2 = store ∨
      (handle_advanced_delete sheet uid crit now store).1
        = .preview (delRowsOf sheet uid crit).length
            (min 5 (delRowsOf sheet uid crit).length)
            (decide ((delRowsOf sheet uid crit).length > 30)) := by
  unfold handle_advanced_delete
  split
  · left; rfl
  · split
    · left; rfl
    · split
      · left; rfl
      · split
        · left; rfl
        · right; rfl

theorem advDelete_preview (sheet : ValSheet) (uid : String)
    (crit : DelCriteria) (now : ℚ) (store : Cache) (total shown : ℕ) (w : Bool)
    (h : (handle_advanced_delete sheet uid crit now store).1
        = .preview total shown w) :
    (handle_advanced_delete sheet uid crit now store).2
        = cacheSet store uid
            ⟨now, serialMap 1 ((delRowsOf sheet uid crit).take 5),
              delRowsOf sheet uid crit⟩ ∧
    total = (delRowsOf sheet uid crit).length ∧
    delRowsOf sheet uid crit ≠ [] := by
  unfold handle_advanced_delete at h ⊢
  split at h
  · simp at h
  · rename_i hC1
    rw [if_neg hC1]
    split at h
    · simp at h
    · rename_i tup hh
      split at h
      · simp at h
      · rename_i hdates
        split at h
        · simp at h
        · rename_i hempty
          rw [if_neg hdates, if_neg hempty]
          refine ⟨rfl, ?_, ?_⟩
          · injection h with h1 h2 h3
            exact h1.symm
          · intro hnil
            exact hempty (by rw [hnil]; rfl)

theorem cacheSet_same (c : Cache) (k : String) (v : DelPreview) :
    cacheSet c k v k = some v := by
  simp [cacheSet]

theorem cacheDel_same (c : Cache) (k : String) : cacheDel c k k = none := by
  simp [cacheDel]

theorem confirm_noPending (store : Cache) (uid : String) (now : ℚ)
    (ord : Option ℕ) (hp : store uid = none) :
    handle_confirm_delete uid now ord store = (.noPending, [], store) := by
  simp [handle_confirm_delete, hp]

theorem confirm_expired (store : Cache) (uid : String) (p : DelPreview)
    (t : ℚ) (ord : Option ℕ) (hp : store uid = some p)
    (ht : 300 < t - p.timestamp) :
    handle_confirm_delete uid t ord store = (.expired, [], cacheDel store uid) := by
  simp only [handle_confirm_delete, hp]
  rw [if_pos (by rw [qSub_eq]; exact ht)]

theorem confirm_all (store : Cache) (uid : String) (p : DelPreview) (t : ℚ)
    (hp : store uid = some p) (ht : t - p.timestamp ≤ 300)
    (hne : p.allRows ≠ []) :
    handle_confirm_delete uid t none store
      = (.deletedAll p.allRows.length, sortDesc p.allRows, cacheDel store uid) := by
  simp only [handle_confirm_delete, hp]
  rw [if_neg (by rw [qSub_eq]; exact not_lt.mpr ht)]
  simp [List.isEmpty_iff, hne]

theorem confirm_ordinal_hit (store : Cache) (uid : String) (p : DelPreview)
    (t : ℚ) (n row : ℕ) (hp : store uid = some p)
    (ht : t - p.timestamp ≤ 300)
    (hrow : lookupSerial p.mapping n = some row) :
    handle_confirm_delete uid t (some n) store
      = (.deletedOne n, [row], cacheDel store uid) := by
  simp only [handle_confirm_delete, hp]
  rw [if_neg (by rw [qSub_eq]; exact not_lt.mpr ht)]
  simp [hrow, sortDesc_singleton]

theorem confirm_ordinal_miss (store : Cache) (uid : String) (p : DelPreview)
    (t : ℚ) (n : ℕ) (hp : store uid = some p) (ht : t - p.timestamp ≤ 300)
    (hrow : lookupSerial p.mapping n = none) :
    handle_confirm_delete uid t (some n) store = (.ordinalNotFound n, [], store) := by
  simp only [handle_confirm_delete, hp]
  rw [if_neg (by rw [qSub_eq]; exact not_lt.mpr ht)]
  simp [hrow]

/-! ## Concrete fixtures used by witnesses and counterexamples -/

/-- `DEFAULT_CATEGORIES` (src/main.py:23). -/
def DEFAULT_CATEGORIES : List String :=
  ["餐飲", "飲料", "交通", "娛樂", "購物", "日用品", "雜項", "收入"]

def hdrNew : List String := ["日期", "類別", "金額", "使用者ID", "姓名", "備註"]

def hdrOld : List String := ["時間", "類別", "金額", "使用者ID", "姓名", "備註"]

def sheetHdrNew : ValSheet :=
  ⟨hdrNew, [["2025-11-08 12:00:00", "餐飲", "-200.0", "U1", "小明", "咖啡"]]⟩

def sheetHdrOld : ValSheet :=
  ⟨hdrOld, [["2025-11-08 12:00:00", "餐飲", "-200.0", "U1", "小明", "咖啡"]]⟩

def queryAll : SearchQuery := ⟨none, none, none, "all"⟩

def sheetW : ValSheet :=
  ⟨hdrNew,
   [["2025-11-01 08:00:00", "餐飲", "-50.0", "U1", "小明", "咖啡一"],
    ["2025-11-02 08:00:00", "飲料", "-60.0", "U1", "小明", "紅茶"],
    ["2025-11-03 08:00:00", "餐飲", "-70.0", "U1", "小明", "咖啡二"],
    ["2025-11-04 08:00:00", "餐飲", "-80.0", "U1", "小明", "咖啡三"]]⟩

def critW : DelCriteria := ⟨some "咖啡", none, none⟩

def critMiss : DelCriteria := ⟨some "不存在", none, none⟩

def storeEmpty : Cache := fun _ => none

def pW : DelPreview := ⟨1000, serialMap 1 [2, 3], [2, 3]⟩

def storeW : Cache := fun k => if k = "U1" then some pW else none

def sheetC7 : ValSheet :=
  ⟨hdrNew,
   [["2025-11-01 09:00:00", "收入", "1000.0", "U1", "小明", "薪水"],
    ["2025-11-05 09:00:00", "收入", "500.0", "U1", "小明", "獎金"],
    ["2025-11-08 12:00:00", "餐飲", "-200.0", "U1", "小明", "午餐"],
    ["2025-11-09 12:00:00", "餐飲", "-300.0", "U1", "小明", "晚餐"],
    ["2025-11-10 12:00:00", "餐飲", "-100.0", "U1", "小明", "早餐"]]⟩

def budgetW : List BudgetRec := [⟨"U1", "餐飲", .num 3000⟩]

def trxNear : List TrxRec :=
  [⟨"U1", "餐飲", .num (-2700), some "2025-11-08 12:00:00", none⟩]

def trxOver : List TrxRec :=
  [⟨"U1", "餐飲", .num (-3100), some "2025-11-08 12:00:00", none⟩]

def trxUnder : List TrxRec :=
  [⟨"U1", "餐飲", .num (-1000), some "2025-11-08 12:00:00", none⟩]

def draftC1 : Draft :=
  ⟨some "2025-11-12 19:00:00", some "餐飲", some (.num (-3100)), some "晚餐"⟩

/-- The ledger as read back right after the C1 write: it contains the
just-written −3100 expense. -/
def ledgerC1 : List TrxRec :=
  [⟨"U1", "餐飲", .num (-3100), some "2025-11-12 19:00:00", none⟩]

def draftC6 : Draft :=
  ⟨some "2025-11-12 19:00:00", some "寵物", some (.num (-120)), some "飼料"⟩

deriving instance DecidableEq for Except

/-! ## Claims -/

/-- Claim C3, counterexample: the claim says `evaluate("3**2")` returns
"not an expression", but the character whitelist of `_parse_amount_expr`
admits adjacent asterisks — Python's power operator — and `eval` returns
`9`. -/
theorem C3_counterexample : parseAmountExpr "3**2" = some 9 := by decide

/-- Claim C3 (amended): the amount expression evaluator evaluates
addition, subtraction and multiplication with `x`/`X` normalised to `*`
(`evaluate("59x2") = 118`, `evaluate("180+60+135") = 375`), and rejects
strings containing characters outside its whitelist (`"3/2"`), but it does
not reject exponentiation: `"3**2"` passes the whitelist and evaluates to
`9`. -/
theorem C3_amount_evaluator :
    parseAmountExpr "59x2" = some 118 ∧
    parseAmountExpr "180+60+135" = some 375 ∧
    parseAmountExpr "3**2" = some 9 ∧
    parseAmountExpr "3/2" = none := by decide

/-- Claim C4 (code bug): the claim says the ledger scans read the
timestamp by trying '日期' and falling back to '時間', so a sheet with
either header name yields the same (successful) filtered result.  The
refactored scans instead call `.get` on the header, which is a Python
*list* (`all_values[0]`), raising `AttributeError` on every call: the
monthly report always returns its generic failure reply and the search
scan always escapes with the exception — under both header names, for a
sheet whose only row would match. -/
theorem C4_timestamp_scan_bug :
    handle_monthly_report sheetHdrNew "U1" "2025-11" = .failure ∧
    handle_monthly_report sheetHdrOld "U1" "2025-11" = .failure ∧
    handle_search_scan sheetHdrNew "U1" queryAll = .error .attrErr ∧
    handle_search_scan sheetHdrOld "U1" queryAll = .error .attrErr := by
  decide

/-- Claim C7 (code bug): for one owner with income rows summing to 1500
and expense rows summing to −600, all in 2025-11, the total analysis does
return income 1500, expense 600 (positive magnitude) and net 900 — but
the monthly report for that period never returns these sums: its header
resolution raises `AttributeError` (`.get` on a list) and the handler
returns its generic failure reply. -/
theorem C7_total_report_sums :
    handle_total_analysis sheetC7 "U1" = .ok 1500 600 [("餐飲", 600)] ∧
    (1500 : ℚ) - 600 = 900 ∧
    handle_monthly_report sheetC7 "U1" "2025-11" = .failure :=
  ⟨by decide, by norm_num, by decide⟩

/-- Claim C1, counterexample: with a 3000 budget on 餐飲 and a just-written
−3100 expense, the post-write budget check would return an OverBudget
warning of 100 — yet the record pipeline's reply is identical whether the
budget store holds that budget or is empty, so no warning can be included
in the reply. -/
theorem C1_counterexample :
    check_budget_warning budgetW ledgerC1 "U1" "餐飲" "2025-11"
        = .overBudget 100 ∧
    handle_nlp_record_success DEFAULT_CATEGORIES budgetW "晚餐 3100" "U1"
        "小明" "2025-11-12 19:36:00" [draftC1]
      = handle_nlp_record_success DEFAULT_CATEGORIES [] "晚餐 3100" "U1"
          "小明" "2025-11-12 19:36:00" [draftC1] := by
  constructor
  · decide
  · rfl

/-- Claim C1 (amended): the record pipeline performs no budget check at
all — the 11-05 revision deleted the `check_budget_warning` call from
`handle_nlp_record` (src/main.py:1197-1205) and the function is never
called anywhere else — so the success-path result is computed without
reading the budget store and never carries a budget warning. -/
theorem C1_record_reply_ignores_budgets (userCats : List String)
    (b1 b2 : List BudgetRec) (text uid uname ct : String)
    (records : List Draft) :
    handle_nlp_record_success userCats b1 text uid uname ct records
      = handle_nlp_record_success userCats b2 text uid uname ct records := rfl

/-- Claim C5: for a category other than "收入" with stored limit `l > 0`
and current-month expense total `S`: `S/l ≥ 1` yields OverBudget carrying
`S − l`; `0.9 ≤ S/l < 1` yields NearLimit carrying `l − S` and the percent
used; otherwise no warning; and the check is a no-op for category "收入",
when no budget row exists for (owner, category), or when the limit is
`≤ 0`. -/
theorem C5_budget_threshold_rules (budgets : List BudgetRec)
    (trxs : List TrxRec) (uid cat month : String) :
    (cat = "收入" → check_budget_warning budgets trxs uid cat month = .quiet) ∧
    (cat ≠ "收入" → findBudgetLimit budgets uid cat = none →
        check_budget_warning budgets trxs uid cat month = .quiet) ∧
    (∀ v l, cat ≠ "收入" → findBudgetLimit budgets uid cat = some v →
        pyFloatVal? v = some l → l ≤ 0 →
        check_budget_warning budgets trxs uid cat month = .quiet) ∧
    (∀ v l, cat ≠ "收入" → findBudgetLimit budgets uid cat = some v →
        pyFloatVal? v = some l → 0 < l →
        ((1 ≤ monthSpent trxs uid cat month / l →
            check_budget_warning budgets trxs uid cat month
              = .overBudget (monthSpent trxs uid cat month - l)) ∧
         (9 / 10 ≤ monthSpent trxs uid cat month / l ∧
              monthSpent trxs uid cat month / l < 1 →
            check_budget_warning budgets trxs uid cat month
              = .nearLimit (l - monthSpent trxs uid cat month)
                  (monthSpent trxs uid cat month / l * 100)) ∧
         (monthSpent trxs uid cat month / l < 9 / 10 →
            check_budget_warning budgets trxs uid cat month = .quiet))) := by
  refine ⟨?_, ?_, ?_, ?_⟩
  · intro h
    simp [check_budget_warning, h]
  · intro hne hnone
    simp [check_budget_warning, hne, hnone]
  · intro v l hne hsome hfl hl0
    simp [check_budget_warning, hne, hsome, hfl, hl0]
  · intro v l hne hsome hfl hl
    have hlne : ¬ l ≤ 0 := not_le.mpr hl
    have hq : qMul (qDiv (monthSpent trxs uid cat month) l) 100
        = monthSpent trxs uid cat month / l * 100 := by
      rw [qMul_eq, qDiv_eq]
    refine ⟨?_, ?_, ?_⟩
    · intro hge
      have h100 : qMul (qDiv (monthSpent trxs uid cat month) l) 100 ≥ 100 := by
        rw [hq]; nlinarith
      simp only [check_budget_warning, hsome, hfl]
      rw [if_neg hne]
      rw [if_neg hlne, if_pos h100, qSub_eq]
    · rintro ⟨h9, h1⟩
      have hlt100 : ¬ qMul (qDiv (monthSpent trxs uid cat month) l) 100 ≥ 100 := by
        rw [hq]; intro hcon; nlinarith
      have h90 : qMul (qDiv (monthSpent trxs uid cat month) l) 100 ≥ 90 := by
        rw [hq]; nlinarith
      simp only [check_budget_warning, hsome, hfl]
      rw [if_neg hne]
      rw [if_neg hlne, if_neg hlt100, if_pos h90, qSub_eq, hq]
    · intro hlow
      have hlt100 : ¬ qMul (qDiv (monthSpent trxs uid cat month) l) 100 ≥ 100 := by
        rw [hq]; intro hcon; nlinarith
      have hlt90 : ¬ qMul (qDiv (monthSpent trxs uid cat month) l) 100 ≥ 90 := by
        rw [hq]; intro hcon; nlinarith
      simp only [check_budget_warning, hsome, hfl]
      rw [if_neg hne]
      rw [if_neg hlne, if_neg hlt100, if_neg hlt90]

/-- Claim C5, witness: limit 3000 with month spends 2700 / 3100 / 1000
give NearLimit (remaining 300, 90 %), OverBudget (overage 100), and no
warning, and the check is a no-op for "收入" and for a category with no
budget row. -/
theorem C5_budget_threshold_rules_witness :
    check_budget_warning budgetW trxNear "U1" "餐飲" "2025-11"
        = .nearLimit (3000 - monthSpent trxNear "U1" "餐飲" "2025-11")
            (monthSpent trxNear "U1" "餐飲" "2025-11" / 3000 * 100) ∧
    check_budget_warning budgetW trxOver "U1" "餐飲" "2025-11"
        = .overBudget (monthSpent trxOver "U1" "餐飲" "2025-11" - 3000) ∧
    check_budget_warning budgetW trxUnder "U1" "餐飲" "2025-11" = .quiet ∧
    check_budget_warning budgetW trxOver "U1" "收入" "2025-11" = .quiet ∧
    check_budget_warning budgetW trxOver "U1" "交通" "2025-11" = .quiet :=
  ⟨((C5_budget_threshold_rules budgetW trxNear "U1" "餐飲" "2025-11").2.2.2
      (.num 3000) 3000 (by decide) (by decide) (by decide)
      (by norm_num)).2.1
    (by constructor
        · have hs : monthSpent trxNear "U1" "餐飲" "2025-11" = 2700 := by decide
          rw [hs]; norm_num
        · have hs : monthSpent trxNear "U1" "餐飲" "2025-11" = 2700 := by decide
          rw [hs]; norm_num),
   ((C5_budget_threshold_rules budgetW trxOver "U1" "餐飲" "2025-11").2.2.2
      (.num 3000) 3000 (by decide) (by decide) (by decide)
      (by norm_num)).1
    (by have hs : monthSpent trxOver "U1" "餐飲" "2025-11" = 3100 := by decide
        rw [hs]; norm_num),
   ((C5_budget_threshold_rules budgetW trxUnder "U1" "餐飲" "2025-11").2.2.2
      (.num 3000) 3000 (by decide) (by decide) (by decide)
      (by norm_num)).2.2
    (by have hs : monthSpent trxUnder "U1" "餐飲" "2025-11" = 1000 := by decide
        rw [hs]; norm_num),
   (C5_budget_threshold_rules budgetW trxOver "U1" "收入" "2025-11").1 rfl,
   (C5_budget_threshold_rules budgetW trxOver "U1" "交通" "2025-11").2.1
      (by decide) (by decide)⟩

/-- Claim C6: a draft whose category is not in the owner's effective
category list is not dropped: it is written with category 雜項 and the
original label prepended in parentheses to the note — both at the
per-draft repair step and end-to-end through the success path for a
one-draft batch. -/
theorem C6_invalid_category_fallback (userCats : List String)
    (budgets : List BudgetRec) (text uid uname ct : String) (d : Draft)
    (c : String) (a : ℚ) (hc : d.category = some c) (hnc : c ∉ userCats)
    (ha : pyFloatVal? (d.amount.getD (.num 0)) = some a) (ha0 : a ≠ 0) :
    processDraft userCats text uid uname ct d
        = .wrote ⟨d.datetime.getD ct, "雜項", a, uid, uname,
            "(" ++ c ++ ") " ++ d.notes.getD text⟩ ∧
    handle_nlp_record_success userCats budgets text uid uname ct [d]
        = .ok ⟨[⟨d.datetime.getD ct, "雜項", a, uid, uname,
                "(" ++ c ++ ") " ++ d.notes.getD text⟩],
              [.wrote ⟨d.datetime.getD ct, "雜項", a, uid, uname,
                "(" ++ c ++ ") " ++ d.notes.getD text⟩],
              if 0 < a then "收入" else "雜項"⟩ := by
  have hpd : processDraft userCats text uid uname ct d
      = .wrote ⟨d.datetime.getD ct, "雜項", a, uid, uname,
          "(" ++ c ++ ") " ++ d.notes.getD text⟩ := by
    unfold processDraft
    rw [hc]
    simp only [Option.getD_some]
    rw [if_neg hnc, ha]
    dsimp only
    rw [if_neg ha0]
  refine ⟨hpd, ?_⟩
  unfold handle_nlp_record_success
  rw [tryCollapse_singleton]
  dsimp only
  simp only [List.isEmpty_cons, List.map_cons, List.map_nil, hpd]
  unfold anyPositiveAmount
  rw [ha]
  by_cases hpos : 0 < a
  · simp [hpos, anyPositiveAmount, List.filterMap]
  · simp [hpos, anyPositiveAmount, List.filterMap]

/-- Claim C6, witness: a draft labelled 寵物 (not a default category) with
amount −120 is written as 雜項 with note "(寵物) 飼料". -/
theorem C6_invalid_category_fallback_witness :
    processDraft DEFAULT_CATEGORIES "買飼料 120" "U1" "小明"
        "2025-11-12 19:36:00" draftC6
      = .wrote ⟨"2025-11-12 19:00:00", "雜項", -120, "U1", "小明",
          "(寵物) 飼料"⟩ ∧
    handle_nlp_record_success DEFAULT_CATEGORIES [] "買飼料 120" "U1" "小明"
        "2025-11-12 19:36:00" [draftC6]
      = .ok ⟨[⟨"2025-11-12 19:00:00", "雜項", -120, "U1", "小明",
              "(寵物) 飼料"⟩],
            [.wrote ⟨"2025-11-12 19:00:00", "雜項", -120, "U1", "小明",
              "(寵物) 飼料"⟩],
            if (0 : ℚ) < -120 then "收入" else "雜項"⟩ :=
  C6_invalid_category_fallback DEFAULT_CATEGORIES [] "買飼料 120" "U1" "小明"
    "2025-11-12 19:36:00" draftC6 "寵物" (-120) (by decide) (by decide)
    (by decide) (by decide)

/-- Claim C2: within one confirm-delete apply step following a preview,
the row deletions are executed in strictly descending GSheet row order: a
lower-numbered row is never deleted before a higher-numbered one.  (The
scan collects rows in ascending index order, so they are distinct, and
the confirm step sorts them with `reverse=True` before deleting.) -/
theorem C2_delete_descending (sheet : ValSheet) (uid : String)
    (crit : DelCriteria) (now t : ℚ) (store : Cache) (total shown : ℕ)
    (w : Bool)
    (h1 : (handle_advanced_delete sheet uid crit now store).1
        = .preview total shown w)
    (ht : t - now ≤ 300) :
    ((handle_confirm_delete uid t none
        ((handle_advanced_delete sheet uid crit now store).2)).2.1).Pairwise
      (· > ·) := by
  obtain ⟨hstore, htotal, hne⟩ :=
    advDelete_preview sheet uid crit now store total shown w h1
  rw [hstore]
  rw [confirm_all _ uid
      ⟨now, serialMap 1 ((delRowsOf sheet uid crit).take 5),
        delRowsOf sheet uid crit⟩ t
      (cacheSet_same store uid _) ht hne]
  exact sortDesc_strict _ (delRowsOf_pairwise sheet uid crit)

/-- Claim C2, witness: a preview over three matching rows (GSheet rows
2, 4, 5) confirmed in full within the TTL deletes in strictly descending
order. -/
theorem C2_delete_descending_witness :
    (handle_advanced_delete sheetW "U1" critW 1000 storeEmpty).1
        = .preview 3 3 false ∧
    ((handle_confirm_delete "U1" 1299 none
        ((handle_advanced_delete sheetW "U1" critW 1000 storeEmpty).2)).2.1).Pairwise
      (· > ·) :=
  ⟨by decide,
   C2_delete_descending sheetW "U1" critW 1000 1299 storeEmpty 3 3 false
     (by decide) (by norm_num : (1299 : ℚ) - 1000 ≤ 300)⟩

/-- Claim C8: a confirm more than 300 seconds after the preview's creation
discards the preview and reports expiry (whatever the ordinal); a confirm
at or under 300 seconds proceeds normally and applies the preview. -/
theorem C8_confirm_ttl (store : Cache) (uid : String) (p : DelPreview)
    (t : ℚ) (hp : store uid = some p) :
    (∀ ord, 300 < t - p.timestamp →
        handle_confirm_delete uid t ord store
          = (.expired, [], cacheDel store uid)) ∧
    (t - p.timestamp ≤ 300 → p.allRows ≠ [] →
        handle_confirm_delete uid t none store
          = (.deletedAll p.allRows.length, sortDesc p.allRows,
              cacheDel store uid)) :=
  ⟨fun ord hgt => confirm_expired store uid p t ord hp hgt,
   fun hle hne => confirm_all store uid p t hp hle hne⟩

/-- Claim C8, witness: a preview created at t = 1000 is expired when
confirmed at t = 1301 (301 s) and applied when confirmed at t = 1299
(299 s). -/
theorem C8_confirm_ttl_witness :
    handle_confirm_delete "U1" 1301 none storeW
        = (.expired, [], cacheDel storeW "U1") ∧
    handle_confirm_delete "U1" 1299 none storeW
        = (.deletedAll 2, sortDesc [2, 3], cacheDel storeW "U1") :=
  ⟨(C8_confirm_ttl storeW "U1" pW 1301 (by decide)).1 none
      (by norm_num : (300 : ℚ) < 1301 - 1000),
   (C8_confirm_ttl storeW "U1" pW 1299 (by decide)).2
      (by norm_num : (1299 : ℚ) - 1000 ≤ 300) (by decide)⟩

/-- Claim C9: on a confirm carrying an ordinal against a live preview of
`total` matches, an ordinal outside `1..min(5, total)` yields the
ordinal-not-found reply with the preview left intact, while a valid
ordinal deletes exactly the one row listed at that position (and no other
row) and discards the preview. -/
theorem C9_confirm_ordinal (sheet : ValSheet) (uid : String)
    (crit : DelCriteria) (now t : ℚ) (store : Cache) (total shown : ℕ)
    (w : Bool) (n : ℕ)
    (h1 : (handle_advanced_delete sheet uid crit now store).1
        = .preview total shown w)
    (ht : t - now ≤ 300) :
    (¬ (1 ≤ n ∧ n ≤ min 5 total) →
        handle_confirm_delete uid t (some n)
            ((handle_advanced_delete sheet uid crit now store).2)
          = (.ordinalNotFound n, [],
              (handle_advanced_delete sheet uid crit now store).2)) ∧
    (1 ≤ n ∧ n ≤ min 5 total →
        handle_confirm_delete uid t (some n)
            ((handle_advanced_delete sheet uid crit now store).2)
          = (.deletedOne n, ((delRowsOf sheet uid crit)[n - 1]?).toList,
              cacheDel ((handle_advanced_delete sheet uid crit now store).2)
                uid)) := by
  obtain ⟨hstore, htotal, hne⟩ :=
    advDelete_preview sheet uid crit now store total shown w h1
  have hlen : ((delRowsOf sheet uid crit).take 5).length
      = min 5 (delRowsOf sheet uid crit).length := by
    simp [List.length_take]
  have hlook : lookupSerial
      (serialMap 1 ((delRowsOf sheet uid crit).take 5)) n
      = if 1 ≤ n ∧ n < 1 + ((delRowsOf sheet uid crit).take 5).length then
          ((delRowsOf sheet uid crit).take 5)[n - 1]? else none :=
    lookupSerial_serialMap _ 1 n
  constructor
  · intro hout
    rw [hstore]
    refine confirm_ordinal_miss _ uid
        ⟨now, serialMap 1 ((delRowsOf sheet uid crit).take 5),
          delRowsOf sheet uid crit⟩ t n (cacheSet_same store uid _) ht ?_
    rw [hlook, if_neg]
    rw [hlen]
    omega
  · intro hin
    have hlt5 : n - 1 < 5 := by omega
    have hltlen : n - 1 < (delRowsOf sheet uid crit).length := by
      rw [htotal] at hin
      omega
    have hgetTake : ((delRowsOf sheet uid crit).take 5)[n - 1]?
        = (delRowsOf sheet uid crit)[n - 1]? :=
      List.getElem?_take_of_lt hlt5
    have hgetSome : (delRowsOf sheet uid crit)[n - 1]?
        = some ((delRowsOf sheet uid crit).get ⟨n - 1, hltlen⟩) :=
      List.getElem?_eq_getElem hltlen
    rw [hstore]
    have hhit : lookupSerial
        (serialMap 1 ((delRowsOf sheet uid crit).take 5)) n
        = some ((delRowsOf sheet uid crit).get ⟨n - 1, hltlen⟩) := by
      rw [hlook, if_pos, hgetTake, hgetSome]
      rw [hlen]
      rw [htotal] at hin
      omega
    rw [confirm_ordinal_hit _ uid
        ⟨now, serialMap 1 ((delRowsOf sheet uid crit).take 5),
          delRowsOf sheet uid crit⟩ t n _
        (cacheSet_same store uid _) ht hhit]
    rw [hgetSome]
    rfl

/-- Claim C9, witness: with a preview of 3 matches, "confirm delete 4" is
ordinal-out-of-range and leaves the preview intact; "confirm delete 2"
deletes exactly the second-listed row and discards the preview. -/
theorem C9_confirm_ordinal_witness :
    handle_confirm_delete "U1" 1299 (some 4)
        ((handle_advanced_delete sheetW "U1" critW 1000 storeEmpty).2)
      = (.ordinalNotFound 4, [],
          (handle_advanced_delete sheetW "U1" critW 1000 storeEmpty).2) ∧
    handle_confirm_delete "U1" 1299 (some 2)
        ((handle_advanced_delete sheetW "U1" critW 1000 storeEmpty).2)
      = (.deletedOne 2, ((delRowsOf sheetW "U1" critW)[1]?).toList,
          cacheDel ((handle_advanced_delete sheetW "U1" critW 1000
            storeEmpty).2) "U1") :=
  ⟨(C9_confirm_ordinal sheetW "U1" critW 1000 1299 storeEmpty 3 3 false 4
      (by decide) (by norm_num : (1299 : ℚ) - 1000 ≤ 300)).1 (by decide),
   (C9_confirm_ordinal sheetW "U1" critW 1000 1299 storeEmpty 3 3 false 2
      (by decide) (by norm_num : (1299 : ℚ) - 1000 ≤ 300)).2 (by decide)⟩

/-- Claim C10: a keyword/date delete request matching zero rows returns
not-found without touching the per-owner preview store, so a previously
stored preview stays live: a confirm within the TTL still applies the
older preview's row references. -/
theorem C10_zero_match_preserves_preview (sheet : ValSheet) (uid : String)
    (crit : DelCriteria) (now : ℚ) (store : Cache)
    (h1 : (handle_advanced_delete sheet uid crit now store).1 = .notFound) :
    (handle_advanced_delete sheet uid crit now store).2 = store ∧
    ∀ p t, store uid = some p → t - p.timestamp ≤ 300 → p.allRows ≠ [] →
        handle_confirm_delete uid t none
            ((handle_advanced_delete sheet uid crit now store).2)
          = (.deletedAll p.allRows.length, sortDesc p.allRows,
              cacheDel store uid) := by
  have hst : (handle_advanced_delete sheet uid crit now store).2 = store := by
    rcases advDelete_cache_cases sheet uid crit now store with h | h
    · exact h
    · rw [h1] at h
      simp at h
  refine ⟨hst, ?_⟩
  intro p t hp hle hnel
  rw [hst]
  exact confirm_all store uid p t hp hle hnel

/-- Claim C10, witness: with an older preview (rows 2 and 3) pending, a
delete request whose keyword matches nothing leaves the store unchanged,
and a confirm 299 s after the old preview's creation still deletes the
old preview's rows. -/
theorem C10_zero_match_preserves_preview_witness :
    (handle_advanced_delete sheetW "U1" critMiss 2000 storeW).2 = storeW ∧
    handle_confirm_delete "U1" 1299 none
        ((handle_advanced_delete sheetW "U1" critMiss 2000 storeW).2)
      = (.deletedAll 2, sortDesc [2, 3], cacheDel storeW "U1") :=
  ⟨(C10_zero_match_preserves_preview sheetW "U1" critMiss 2000 storeW
      (by decide)).1,
   (C10_zero_match_preserves_preview sheetW "U1" critMiss 2000 storeW
      (by decide)).2 pW 1299 (by decide)
      (by norm_num : (1299 : ℚ) - 1000 ≤ 300) (by decide)⟩

end Raccoon

